import Mathlib

set_option maxRecDepth 2048

/-!
Verification of the `SanidhyaRana/feedback` repository against its
natural-language specification.

The repository's source under `src/` consists of the two Streamlit admin
dashboards `test.py` and `test1.py`.  These are embedded below in the
namespaces `Test` and `Test1`.  The specification's "History Compactor"
routine (spec §4.1) is code of the repository that is not present under
`src/`; it is modelled from the specification's words in the namespace
`Compactor`, as are the mini structured-content (JSON object) parser and
serializer it relies on.
-/

namespace Compactor

/-- Modelled from the spec: message roles (§3).  The store may emit roles
beyond the enumerated ones; those are carried as an opaque tag and treated
as pass-through. -/
inductive Role where
  | user
  | assistant
  | developer
  | tool
  | otherTag (tag : String)
deriving DecidableEq, Repr

/-- Modelled from the spec: a message is a role together with a content
string, which may or may not hold serialized structured data (§3). -/
structure Message where
  role : Role
  content : String
deriving DecidableEq, Repr

/-- Modelled from the spec: an atomic JSON value appearing in the flat
structured content of a message.  A number is kept as its digit lexeme so
that re-serialization reproduces it verbatim; a string value keeps its
characters (quote-free once parsed). -/
inductive JVal where
  | jnum (digits : List Char)
  | jstr (chars : List Char)
deriving DecidableEq, Repr

/-- Modelled from the spec: the structured content of a message is a flat
object, a list of key/value pairs. -/
abbrev Obj : Type := List (List Char × JVal)

instance : Nonempty Obj :=
  ⟨([] : List (List Char × JVal))⟩

/-- Serialized characters of a single value. -/
def valChars : JVal → List Char
  | .jnum ds => ds
  | .jstr s => '"' :: s ++ ['"']

/-- Serialized characters of a single key/value pair: `"key":value`. -/
def pairChars (p : List Char × JVal) : List Char :=
  '"' :: p.1 ++ '"' :: ':' :: valChars p.2

/-- Serialized characters of the pair list, comma separated. -/
def pairsChars : Obj → List Char
  | [] => []
  | [p] => pairChars p
  | p :: q :: rest => pairChars p ++ ',' :: pairsChars (q :: rest)

/-- Serialized characters of a whole object: `{...}`. -/
def objChars (o : Obj) : List Char :=
  '\x7b' :: pairsChars o ++ ['\x7d']

/-- Modelled from the spec: re-serialization of a structured object back to
a content string (§4.1 step 3: non-ASCII characters preserved verbatim). -/
def serObj (o : Obj) : String :=
  ⟨objChars o⟩

/-- Read characters up to the closing quote of a string token; fails if the
input ends before a quote is found. -/
def readString : List Char → Option (List Char × List Char)
  | [] => none
  | c :: cs =>
    if c = '"' then some ([], cs)
    else
      match readString cs with
      | none => none
      | some (s, r) => some (c :: s, r)

/-- Read a maximal run of digit characters. -/
def readDigits : List Char → List Char × List Char
  | [] => ([], [])
  | c :: cs =>
    if c.isDigit then
      let (d, r) := readDigits cs
      (c :: d, r)
    else ([], c :: cs)

/-- Read one atomic value: a quoted string or a digit run. -/
def readVal : List Char → Option (JVal × List Char)
  | [] => none
  | c :: cs =>
    if c = '"' then
      match readString cs with
      | none => none
      | some (s, r) => some (.jstr s, r)
    else if c.isDigit then
      let (d, r) := readDigits (c :: cs)
      some (.jnum d, r)
    else none

/-- Read a nonempty comma-separated pair sequence terminated by `}`.  The
fuel argument bounds the number of pairs and makes the recursion
structural. -/
def parsePairs : Nat → List Char → Option (Obj × List Char)
  | 0, _ => none
  | fuel + 1, cs =>
    match cs with
    | [] => none
    | c0 :: cs1 =>
      if c0 = '"' then
        match readString cs1 with
        | none => none
        | some (k, cs2) =>
          match cs2 with
          | [] => none
          | c2 :: cs3 =>
            if c2 = ':' then
              match readVal cs3 with
              | none => none
              | some (v, cs4) =>
                match cs4 with
                | [] => none
                | c4 :: cs5 =>
                  if c4 = ',' then
                    match parsePairs fuel cs5 with
                    | none => none
                    | some (o, r) => some ((k, v) :: o, r)
                  else if c4 = '\x7d' then some ([(k, v)], cs5)
                  else none
            else none
      else none

/-- Modelled from the spec: attempt to parse a content string as structured
(JSON-object) data (§4.1 step 3).  Returns `none` on malformed data, wrong
type (non-object), or trailing garbage. -/
def parseObj (c : String) : Option Obj :=
  match c.data with
  | [] => none
  | ch :: cs =>
    if ch = '\x7b' then
      if cs = ['\x7d'] then some []
      else
        match parsePairs cs.length cs with
        | some (o, []) => some o
        | _ => none
    else none

/-- Does the object carry the scrubbed key? -/
def containsKey (k : String) (o : Obj) : Bool :=
  o.any (fun p => p.1 = k.data)

/-- Modelled from the spec: content transformation for a single non-latest
user message (§4.1 step 3): on a successful parse the scrubbed key is
removed (a no-op when absent) and the remainder re-serialized; on a failed
parse the content is left exactly as stored. -/
def scrubContent (k : String) (c : String) : String :=
  match parseObj c with
  | some o => serObj (o.filter (fun p => ¬ p.1 = k.data))
  | none => c

/-- Scrub one message's content, keeping its role. -/
def scrubMessage (k : String) (m : Message) : Message :=
  { m with content := scrubContent k m.content }

/-- Modelled from the spec: scrub every user message except the last
(§4.1 step 3: the final element is the current turn and is retained
unmodified). -/
def scrubAllButLast (k : String) : List Message → List Message
  | [] => []
  | [m] => [m]
  | m :: m' :: rest => scrubMessage k m :: scrubAllButLast k (m' :: rest)

/-- Modelled from the spec: the user-message group, original order (§4.1
step 2). -/
def userMessages (msgs : List Message) : List Message :=
  msgs.filter (fun m => m.role = Role.user)

/-- Modelled from the spec: the pass-through group, everything that is
neither user nor developer, original order (§4.1 step 2). -/
def otherMessages (msgs : List Message) : List Message :=
  msgs.filter (fun m => ¬ m.role = Role.user ∧ ¬ m.role = Role.developer)

/-- Modelled from the spec: the full compaction transformation (§4.1 steps
2-5): pass-through messages, then the scrubbed user messages, then exactly
one fresh developer message; prior developer messages are dropped. -/
def compact (k : String) (msgs : List Message) (freshHeader : String) : List Message :=
  otherMessages msgs ++ scrubAllButLast k (userMessages msgs)
    ++ [{ role := Role.developer, content := freshHeader }]

/-- Modelled from the spec: a session is an ordered message log held by the
external store (§3). -/
structure Session where
  messages : List Message
deriving DecidableEq, Repr

/-- Modelled from the spec: ordered read of the session's stored list
(`get_items`, §6). -/
def listMessages (s : Session) : List Message :=
  s.messages

/-- Modelled from the spec: delete-then-append replacement of the session's
stored list (`delete` then `add_items`, §4.1 steps 4-5). -/
def replaceAll (_s : Session) (ms : List Message) : Session :=
  { messages := ms }

/-- Modelled from the spec: the compact routine against the store —
read the list, transform it, and swap the result in (§4.1 contract). -/
def compactSession (k : String) (s : Session) (freshHeader : String) : Session :=
  replaceAll s (compact k (listMessages s) freshHeader)

/-- A value the parser can produce: number lexemes are nonempty digit
runs, string values are quote-free. -/
def wfVal : JVal → Prop
  | .jnum ds => ds ≠ [] ∧ ∀ c ∈ ds, c.isDigit
  | .jstr s => '"' ∉ s

/-- A pair the parser can produce: quote-free key, well-formed value. -/
def wfPair (p : List Char × JVal) : Prop :=
  '"' ∉ p.1 ∧ wfVal p.2

/-- An object the parser can produce. -/
def wfObj (o : Obj) : Prop :=
  ∀ p ∈ o, wfPair p

/-- The continuation after a serialized value must not start with a digit
(in object position it starts with `,` or `\x7d`). -/
def headNotDigit (cs : List Char) : Prop :=
  ∀ c, cs.head? = some c → c.isDigit = false

end Compactor

namespace Dash

/-- A Python value as passed to the database driver.  The `conversation`
argument of `insert_feedback` is either the text read back from the `das`
table (a string, since the read query casts `conversation::text`) or, in
general, a Python dict.  Dict payloads are modelled flat with string
values, which is all `json.dumps` needs here. -/
inductive PyVal where
  | pstr (s : String)
  | pdict (d : List (String × String))
deriving DecidableEq, Repr

/-- `json.dumps` on a flat string-valued dict, with Python's default
separators `", "` and `": "`. -/
def pyJsonDumps (d : List (String × String)) : String :=
  "\x7b" ++ String.intercalate ", "
    (d.map (fun p => "\"" ++ p.1 ++ "\": \"" ++ p.2 ++ "\"")) ++ "\x7d"

/-- A row of `public.das` as selected by `fetch_das_data` in both
dashboards: id, industry, the conversation cast to text, the four feedback
columns (nullable), and the two timestamps (modelled as naturals, only
their ordering matters to `ORDER BY`). -/
structure Row where
  conversationId : String
  industry : Option String
  conversation : String
  genericFeedback : Option String
  industryFeedback : Option String
  marketSegmentFeedback : Option String
  conversationFeedback : Option String
  createdAt : Nat
  updatedAt : Nat
deriving DecidableEq, Repr

/-- A row of `public.das_feedback` as inserted by `insert_feedback`. -/
structure FeedbackRow where
  conversationId : String
  industry : Option String
  conversation : PyVal
  genericFeedback : String
  industryFeedback : String
  marketSegmentFeedback : String
  conversationFeedback : String
  approvedBy : String
deriving DecidableEq, Repr

/-- The database as the two tables the dashboards touch. -/
structure DB where
  das : List Row
  das_feedback : List FeedbackRow
deriving DecidableEq, Repr

/-- `ORDER BY "createdAt" DESC` over the `das` table. -/
def orderByCreatedAtDesc (rows : List Row) : List Row :=
  rows.mergeSort (fun a b => b.createdAt ≤ a.createdAt)

/-- `conversation_json = json.dumps(conversation) if isinstance(conversation, dict)
else conversation` (test.py line 61 / test1.py line 90). -/
def conversation_json : PyVal → PyVal
  | .pdict d => .pstr (pyJsonDumps d)
  | c => c

/-- Whether the staged `INSERT`/`COMMIT` of `insert_feedback` raises, and
where.  `success` is the non-raising run; in `execFails` the `INSERT`
statement raises, in `commitFails` the statement is staged but `COMMIT`
raises. -/
inductive InsertOutcome where
  | success
  | execFails
  | commitFails
deriving DecidableEq, Repr

/-- Observable result of one `insert_feedback` call: final database,
returned boolean, and whether the cursor/connection were closed by the
`finally` block. -/
structure InsertResult where
  db : DB
  returned : Bool
  cursorClosed : Bool
  connClosed : Bool
deriving DecidableEq, Repr

/-- The non-form arguments `insert_feedback` receives from the selected
row plus the form fields. -/
structure InsertArgs where
  conversation_id : String
  industry : Option String
  conversation : PyVal
  generic_fb : String
  industry_fb : String
  market_segment_fb : String
  conversation_fb : String
  approved_by : String
deriving DecidableEq, Repr

/-- The feedback row staged by the `INSERT` statement. -/
def stagedRow (a : InsertArgs) : FeedbackRow :=
  { conversationId := a.conversation_id
    industry := a.industry
    conversation := conversation_json a.conversation
    genericFeedback := a.generic_fb
    industryFeedback := a.industry_fb
    marketSegmentFeedback := a.market_segment_fb
    conversationFeedback := a.conversation_fb
    approvedBy := a.approved_by }

/-- Shared body of `insert_feedback` (identical in test.py lines 49-72 and
test1.py lines 72-102, up to the unused `ai_notes` parameter): stage the
row, commit and return `True`; on any exception roll back, display the
error and return `False`; in both paths the `finally` block closes the
cursor and the connection. -/
def insertFeedbackRun (db : DB) (a : InsertArgs) (outcome : InsertOutcome) : InsertResult :=
  match outcome with
  | .success =>
      { db := { db with das_feedback := db.das_feedback ++ [stagedRow a] }
        returned := true
        cursorClosed := true
        connClosed := true }
  | .execFails =>
      { db := db, returned := false, cursorClosed := true, connClosed := true }
  | .commitFails =>
      { db := db, returned := false, cursorClosed := true, connClosed := true }

/-- A recovery action taken inside an exception handler of the repository. -/
inductive RecoveryAction where
  | displayError
  | rollback
  | returnFalseValue
  | setClientNone
  | retryAction
deriving DecidableEq, Repr

/-- One `try/except` block of the repository: its location, whether it
catches the generic `Exception` type, and what its handler does. -/
structure ExceptBlock where
  location : String
  catchesGenericException : Bool
  actions : List RecoveryAction
deriving DecidableEq, Repr

/-- Every exception handler in the repository's source files.  `test.py`
has the `insert_feedback` handler (lines 66-69) and the view/edit page
handlers (lines 124-125, 192-193); `test1.py` has the OpenAI client
initialization handler (lines 25-27), the `insert_feedback` handler
(lines 96-99), and the `get_ai_critique` handler (lines 143-144, which
returns the error string that is then displayed). -/
def repoExceptHandlers : List ExceptBlock :=
  [ ⟨"test.py insert_feedback", true,
      [.rollback, .displayError, .returnFalseValue]⟩,
    ⟨"test.py view mode", true, [.displayError]⟩,
    ⟨"test.py edit mode", true, [.displayError]⟩,
    ⟨"test1.py OpenAI client init", true, [.displayError, .setClientNone]⟩,
    ⟨"test1.py insert_feedback", true,
      [.rollback, .displayError, .returnFalseValue]⟩,
    ⟨"test1.py get_ai_critique", true, [.displayError]⟩ ]

end Dash

namespace Test

open Dash

/-- `fetch_das_data` of test.py (lines 24-47): select every row of
`public.das`, ordered by `createdAt` descending — the query has no
`LIMIT`/`OFFSET` clause. -/
def fetch_das_data (das : List Row) : List Row :=
  orderByCreatedAtDesc das

/-- `insert_feedback` of test.py (lines 49-72). -/
def insert_feedback (db : DB) (a : InsertArgs) (outcome : InsertOutcome) : InsertResult :=
  insertFeedbackRun db a outcome

end Test

namespace Test1

open Dash

/-- `fetch_das_data` of test1.py (lines 37-70): a `COUNT(*)` of
`public.das` plus one page of rows, ordered by `createdAt` descending
with `LIMIT limit OFFSET offset`. -/
def fetch_das_data (limit offset : Nat) (das : List Row) : List Row × Nat :=
  (((orderByCreatedAtDesc das).drop offset).take limit, das.length)

/-- `insert_feedback` of test1.py (lines 72-102); the extra `ai_notes`
parameter is accepted and unused. -/
def insert_feedback (db : DB) (a : InsertArgs) (_ai_notes : Option String)
    (outcome : InsertOutcome) : InsertResult :=
  insertFeedbackRun db a outcome

/-- Outcome of the `client.chat.completions.create` call: the response
content string, or the exception it raised (as `str(e)`). -/
inductive ChatOutcome where
  | ok (content : String)
  | raises (e : String)
deriving DecidableEq, Repr

/-- Python `s[:n]` on a string. -/
def pyTruncate (n : Nat) (s : String) : String :=
  ⟨s.data.take n⟩

/-- `current_feedbacks.get(key, default)` rendered into the f-string:
a missing key yields the default, a key present with value `None` renders
as `"None"`, and a string value renders as itself. -/
def pyDictGetRendered (d : List (String × Option String)) (key dflt : String) : String :=
  match d.lookup key with
  | none => dflt
  | some none => "None"
  | some (some s) => s

/-- Literal text of the prompt f-string before the conversation
interpolation (test1.py lines 111-115). -/
def promptSeg1 : String :=
  "\n    You are a QA Lead auditing AI conversation logs. \n    \n    CONTEXT:\n    Conversation: "

/-- Literal text between the conversation and the generic-feedback
interpolations (test1.py lines 115-119). -/
def promptSeg2 : String :=
  " \n    (Conversation truncated if too long)\n    \n    CURRENT FEEDBACK DRAFT:\n    1. Generic Feedback: "

/-- Literal text before the industry-feedback interpolation. -/
def promptSeg3 : String :=
  "\n    2. Industry Feedback: "

/-- Literal text before the market-segment-feedback interpolation. -/
def promptSeg4 : String :=
  "\n    3. Market Segment Feedback: "

/-- Literal text before the conversation-feedback interpolation. -/
def promptSeg5 : String :=
  "\n    4. Conversation Feedback: "

/-- Literal text after the last interpolation (test1.py lines 123-131). -/
def promptSeg6 : String :=
  "\n    \n    YOUR TASK:\n    1. Review the feedback for clarity and quality.\n    2. CATEGORY CHECK: Identify if any feedback is in the wrong category (e.g., industry-specific nuances placed in \x27Generic\x27).\n    3. IMPROVEMENT: Rewrite the feedback to be more professional and actionable if necessary.\n    \n    Output Format:\n    Provide a concise summary of suggestions or a rewritten version of the feedback fields that need changes.\n    "

/-- The prompt f-string of `get_ai_critique` (test1.py lines 111-131),
verbatim, with the conversation text truncated to its first 8000
characters. -/
def critiquePrompt (conversation_text : String)
    (current_feedbacks : List (String × Option String)) : String :=
  promptSeg1
    ++ pyTruncate 8000 conversation_text
    ++ promptSeg2
    ++ pyDictGetRendered current_feedbacks "generic" "N/A"
    ++ promptSeg3
    ++ pyDictGetRendered current_feedbacks "industry" "N/A"
    ++ promptSeg4
    ++ pyDictGetRendered current_feedbacks "market" "N/A"
    ++ promptSeg5
    ++ pyDictGetRendered current_feedbacks "conversation" "N/A"
    ++ promptSeg6

/-- `get_ai_critique` of test1.py (lines 106-144).  The hosted model is the
function from the user-prompt string to the call's outcome; `none` models
an uninitialized (falsy) client. -/
def get_ai_critique (client : Option (String → ChatOutcome))
    (conversation_text : String)
    (current_feedbacks : List (String × Option String)) : String :=
  match client with
  | none => "Error: OpenAI client not initialized."
  | some chat =>
    match chat (critiquePrompt conversation_text current_feedbacks) with
    | .ok content => content
    | .raises e => "AI Error: " ++ e

/-- The `current_inputs` dict built by the Analyze & Improve button handler
(test1.py lines 300-305). -/
def current_inputs (row : Row) : List (String × Option String) :=
  [ ("generic", row.genericFeedback),
    ("industry", row.industryFeedback),
    ("market", row.marketSegmentFeedback),
    ("conversation", row.conversationFeedback) ]

/-- The Analyze & Improve button handler (test1.py lines 298-310): call
`get_ai_critique` on the row's conversation text and current feedback and
store the result in `st.session_state.ai_result`. -/
def analyzeButtonAiResult (client : Option (String → ChatOutcome)) (row : Row) : String :=
  get_ai_critique client row.conversation (current_inputs row)

/-- What the edit page shows for the stored AI result (test1.py lines
269-270): `st.info` displays it when it is truthy (non-empty). -/
def displayedAiResult (ai_result : String) : Option String :=
  if ai_result = "" then none else some ai_result

end Test1

/-! ## Lemmas about the structured-content parser and serializer -/

namespace Compactor

theorem readString_append (s rest : List Char) (h : '"' ∉ s) :
    readString (s ++ '"' :: rest) = some (s, rest) := by
  induction s with
  | nil => simp [readString]
  | cons c s ih =>
    simp only [List.mem_cons, not_or] at h
    have hc : ¬ c = '"' := fun hh => h.1 hh.symm
    simp [readString, hc, ih h.2]

theorem readString_no_quote : ∀ cs s r, readString cs = some (s, r) → '"' ∉ s := by
  intro cs
  induction cs with
  | nil => intro s r h; simp [readString] at h
  | cons c cs ih =>
    intro s r h
    by_cases hc : c = '"'
    · subst hc
      simp [readString] at h
      obtain ⟨h1, h2⟩ := h
      subst h1
      simp
    · simp only [readString, if_neg hc] at h
      cases hrs : readString cs with
      | none => rw [hrs] at h; simp at h
      | some pr =>
        obtain ⟨s', r'⟩ := pr
        rw [hrs] at h
        simp at h
        obtain ⟨h1, h2⟩ := h
        subst h1
        intro hmem
        rcases List.mem_cons.mp hmem with h1 | h2
        · exact hc h1.symm
        · exact ih s' r' hrs h2

theorem readDigits_append (ds rest : List Char) (hd : ∀ c ∈ ds, c.isDigit)
    (hr : headNotDigit rest) : readDigits (ds ++ rest) = (ds, rest) := by
  induction ds with
  | nil =>
    cases rest with
    | nil => simp [readDigits]
    | cons c cs =>
      have : c.isDigit = false := hr c rfl
      simp [readDigits, this]
  | cons c ds ih =>
    have hc : c.isDigit := hd c (List.mem_cons_self c ds)
    have ih' := ih (fun x hx => hd x (List.mem_cons_of_mem c hx))
    simp [readDigits, hc, ih']

theorem readDigits_digits : ∀ cs, ∀ c ∈ (readDigits cs).1, c.isDigit := by
  intro cs
  induction cs with
  | nil => simp [readDigits]
  | cons c cs ih =>
    by_cases hc : c.isDigit
    · simp only [readDigits, if_pos hc]
      intro x hx
      rcases List.mem_cons.mp hx with h1 | h2
      · rw [h1]; exact hc
      · exact ih x h2
    · simp [readDigits, hc]

theorem readVal_append (v : JVal) (rest : List Char) (hv : wfVal v)
    (hr : headNotDigit rest) : readVal (valChars v ++ rest) = some (v, rest) := by
  cases v with
  | jstr s =>
    have : valChars (JVal.jstr s) ++ rest = '"' :: (s ++ '"' :: rest) := by
      simp [valChars]
    rw [this]
    simp [readVal, readString_append s rest hv]
  | jnum ds =>
    obtain ⟨hne, hdig⟩ := hv
    cases ds with
    | nil => exact absurd rfl hne
    | cons c ds =>
      have hc : c.isDigit := hdig c (List.mem_cons_self c ds)
      have hcq : ¬ c = '"' := by
        intro hh
        rw [hh] at hc
        simp [Char.isDigit] at hc
      have htail := readDigits_append ds rest (fun x hx => hdig x (List.mem_cons_of_mem c hx)) hr
      simp [valChars, readVal, hcq, hc, readDigits, htail]

theorem readVal_wf : ∀ cs v r, readVal cs = some (v, r) → wfVal v := by
  intro cs v r h
  cases cs with
  | nil => simp [readVal] at h
  | cons c cs =>
    by_cases hc : c = '"'
    · simp only [readVal, if_pos hc] at h
      cases hrs : readString cs with
      | none => rw [hrs] at h; simp at h
      | some pr =>
        obtain ⟨s, r'⟩ := pr
        rw [hrs] at h
        simp at h
        rw [← h.1]
        exact readString_no_quote cs s r' hrs
    · by_cases hd : c.isDigit
      · simp only [readVal, if_neg hc, if_pos hd] at h
        simp at h
        obtain ⟨h1, h2⟩ := h
        subst h1
        refine ⟨by simp [readDigits, hd], ?_⟩
        intro x hx
        exact readDigits_digits (c :: cs) x hx
      · simp [readVal, hc, hd] at h

theorem parsePairs_ser :
    ∀ (o : Obj), wfObj o → o ≠ [] → ∀ fuel, o.length ≤ fuel → ∀ rest,
      parsePairs fuel (pairsChars o ++ '\x7d' :: rest) = some (o, rest) := by
  intro o
  induction o with
  | nil => intro _ hne; exact absurd rfl hne
  | cons p o' ih =>
    intro hwf _ fuel hfuel rest
    obtain ⟨k, v⟩ := p
    have hp : wfPair (k, v) := hwf (k, v) (List.mem_cons_self _ _)
    cases fuel with
    | zero => simp at hfuel
    | succ f =>
      cases o' with
      | nil =>
        have hshape :
            pairsChars [(k, v)] ++ '\x7d' :: rest
              = '"' :: (k ++ '"' :: ':' :: (valChars v ++ '\x7d' :: rest)) := by
          simp [pairsChars, pairChars]
        rw [hshape]
        have hnd : headNotDigit ('\x7d' :: rest) := by
          intro c hc
          simp at hc
          rw [← hc]
          decide
        simp [parsePairs, readString_append k _ hp.1, readVal_append v _ hp.2 hnd]
      | cons q o'' =>
        have hshape :
            pairsChars ((k, v) :: q :: o'') ++ '\x7d' :: rest
              = '"' :: (k ++ '"' :: ':' ::
                  (valChars v ++ ',' :: (pairsChars (q :: o'') ++ '\x7d' :: rest))) := by
          simp [pairsChars, pairChars]
        rw [hshape]
        have hnd : headNotDigit (',' :: (pairsChars (q :: o'') ++ '\x7d' :: rest)) := by
          intro c hc
          simp at hc
          rw [← hc]
          decide
        have hrec := ih (fun x hx => hwf x (List.mem_cons_of_mem _ hx)) (by simp)
          f (Nat.le_of_succ_le_succ hfuel) rest
        simp [parsePairs, readString_append k _ hp.1, readVal_append v _ hp.2 hnd, hrec]

theorem parsePairs_wf :
    ∀ fuel cs o r, parsePairs fuel cs = some (o, r) → wfObj o := by
  intro fuel
  induction fuel with
  | zero => intro cs o r h; simp [parsePairs] at h
  | succ f ih =>
    intro cs o r h
    cases cs with
    | nil => simp [parsePairs] at h
    | cons c0 cs1 =>
      by_cases hc0 : c0 = '"'
      · simp only [parsePairs, if_pos hc0] at h
        cases hrs : readString cs1 with
        | none => rw [hrs] at h; simp at h
        | some pr =>
          obtain ⟨k, cs2⟩ := pr
          rw [hrs] at h
          have hk : '"' ∉ k := readString_no_quote cs1 k cs2 hrs
          cases cs2 with
          | nil => simp at h
          | cons c2 cs3 =>
            by_cases hc2 : c2 = ':'
            · simp only [if_pos hc2] at h
              cases hrv : readVal cs3 with
              | none => rw [hrv] at h; simp at h
              | some pv =>
                obtain ⟨v, cs4⟩ := pv
                rw [hrv] at h
                have hv : wfVal v := readVal_wf cs3 v cs4 hrv
                cases cs4 with
                | nil => simp at h
                | cons c4 cs5 =>
                  by_cases hc4 : c4 = ','
                  · simp only [if_pos hc4] at h
                    cases hrec : parsePairs f cs5 with
                    | none => rw [hrec] at h; simp at h
                    | some po =>
                      obtain ⟨o', r'⟩ := po
                      rw [hrec] at h
                      simp at h
                      rw [← h.1]
                      intro x hx
                      rcases List.mem_cons.mp hx with h1 | h2
                      · rw [h1]; exact ⟨hk, hv⟩
                      · exact ih cs5 o' r' hrec x h2
                  · by_cases hc4' : c4 = '\x7d'
                    · simp only [if_neg hc4, if_pos hc4'] at h
                      simp at h
                      rw [← h.1]
                      intro x hx
                      rcases List.mem_cons.mp hx with h1 | h2
                      · rw [h1]; exact ⟨hk, hv⟩
                      · simp at h2
                    · simp [if_neg hc4, if_neg hc4'] at h
            · simp [if_neg hc2] at h
      · simp [parsePairs, if_neg hc0] at h

theorem pairChars_length_pos (p : List Char × JVal) : 1 ≤ (pairChars p).length := by
  simp [pairChars]

theorem pairsChars_length_ge : ∀ o : Obj, o.length ≤ (pairsChars o).length := by
  intro o
  induction o with
  | nil => simp [pairsChars]
  | cons p o' ih =>
    cases o' with
    | nil =>
      have := pairChars_length_pos p
      simpa [pairsChars] using this
    | cons q o'' =>
      have h1 := pairChars_length_pos p
      have h2 : (q :: o'').length ≤ (pairsChars (q :: o'')).length := ih
      simp only [pairsChars, List.length_append, List.length_cons] at *
      omega

theorem parseObj_serObj (o : Obj) (ho : wfObj o) : parseObj (serObj o) = some o := by
  cases o with
  | nil => rfl
  | cons p o' =>
    have hlen := pairsChars_length_ge (p :: o')
    have hne : ¬ (pairsChars (p :: o') ++ ['\x7d']) = ['\x7d'] := by
      intro hh
      have := congrArg List.length hh
      simp at this
      simp [this] at hlen
    have hget := parsePairs_ser (p :: o') ho (by simp)
      (pairsChars (p :: o') ++ ['\x7d']).length
      (by
        have h3 := pairsChars_length_ge (p :: o')
        simp at h3 ⊢
        omega) []
    have hshape : pairsChars (p :: o') ++ '\x7d' :: [] = pairsChars (p :: o') ++ ['\x7d'] := rfl
    rw [hshape] at hget
    have hget' : parsePairs ((pairsChars (p :: o')).length + 1)
        (pairsChars (p :: o') ++ ['\x7d']) = some (p :: o', []) := by
      simpa using hget
    simp only [serObj, objChars, parseObj, String.data]
    simp [hne, hget']

theorem parseObj_wf (c : String) (o : Obj) (h : parseObj c = some o) : wfObj o := by
  unfold parseObj at h
  cases hcd : c.data with
  | nil => rw [hcd] at h; simp at h
  | cons ch cs =>
    rw [hcd] at h
    by_cases hch : ch = '\x7b'
    · simp only [if_pos hch] at h
      by_cases hcs : cs = ['\x7d']
      · simp only [if_pos hcs] at h
        simp at h
        subst h
        intro p hp
        simp at hp
      · simp only [if_neg hcs] at h
        cases hpp : parsePairs cs.length cs with
        | none => rw [hpp] at h; simp at h
        | some pr =>
          obtain ⟨o', r⟩ := pr
          rw [hpp] at h
          cases r with
          | nil =>
            simp at h
            subst h
            exact parsePairs_wf cs.length cs o' [] hpp
          | cons x xs => simp at h
    · simp [if_neg hch] at h

theorem wfObj_filter (o : Obj) (f : List Char × JVal → Bool) (h : wfObj o) :
    wfObj (o.filter f) :=
  fun p hp => h p (List.mem_of_mem_filter hp)

theorem containsKey_filter (k : String) (o : Obj) :
    containsKey k (o.filter (fun p => ¬ p.1 = k.data)) = false := by
  unfold containsKey
  rw [List.any_eq_false]
  intro p hp
  have := (List.mem_filter.mp hp).2
  simpa using this

theorem scrubContent_parse_some (k c : String) (o : Obj) (h : parseObj c = some o) :
    parseObj (scrubContent k c) = some (o.filter (fun p => ¬ p.1 = k.data))
      ∧ containsKey k (o.filter (fun p => ¬ p.1 = k.data)) = false := by
  constructor
  · unfold scrubContent
    rw [h]
    exact parseObj_serObj _ (wfObj_filter o _ (parseObj_wf c o h))
  · exact containsKey_filter k o

theorem scrubContent_parse_none (k c : String) (h : parseObj c = none) :
    scrubContent k c = c := by
  unfold scrubContent
  rw [h]

/-! ## Lemmas about the compaction transformation -/

theorem scrubAllButLast_roles (k : String) :
    ∀ us, (scrubAllButLast k us).map Message.role = us.map Message.role := by
  intro us
  induction us with
  | nil => rfl
  | cons m tail ih =>
    cases tail with
    | nil => rfl
    | cons m' rest =>
      simp only [scrubAllButLast, List.map_cons]
      rw [ih]
      rfl

theorem scrubAllButLast_length (k : String) (us : List Message) :
    (scrubAllButLast k us).length = us.length := by
  have := congrArg List.length (scrubAllButLast_roles k us)
  simpa using this

theorem scrubAllButLast_getLast? (k : String) :
    ∀ us, (scrubAllButLast k us).getLast? = us.getLast? := by
  intro us
  induction us with
  | nil => rfl
  | cons m tail ih =>
    cases tail with
    | nil => rfl
    | cons m' rest =>
      cases rest with
      | nil => simp [scrubAllButLast, scrubMessage, List.getLast?]
      | cons m'' r =>
        calc (scrubAllButLast k (m :: m' :: m'' :: r)).getLast?
            = (scrubAllButLast k (m' :: m'' :: r)).getLast? := by
              rw [show scrubAllButLast k (m :: m' :: m'' :: r)
                    = scrubMessage k m :: scrubAllButLast k (m' :: m'' :: r) from rfl]
              rw [show scrubAllButLast k (m' :: m'' :: r)
                    = scrubMessage k m' :: scrubAllButLast k (m'' :: r) from rfl]
              exact List.getLast?_cons_cons
          _ = (m' :: m'' :: r).getLast? := ih
          _ = (m :: m' :: m'' :: r).getLast? := List.getLast?_cons_cons.symm

theorem scrubAllButLast_getElem? (k : String) :
    ∀ us (i : Nat), i + 1 < us.length →
      (scrubAllButLast k us)[i]? = (us[i]?).map (scrubMessage k) := by
  intro us
  induction us with
  | nil => intro i hi; simp at hi
  | cons m tail ih =>
    intro i hi
    cases tail with
    | nil => simp at hi
    | cons m' rest =>
      cases i with
      | zero => simp [scrubAllButLast]
      | succ j =>
        have hj : j + 1 < (m' :: rest).length := by
          simp at hi ⊢
          omega
        simp only [scrubAllButLast, List.getElem?_cons_succ]
        exact ih j hj

theorem mem_scrubAllButLast_role (k : String) (us : List Message) (m : Message)
    (hm : m ∈ scrubAllButLast k us) : m.role ∈ us.map Message.role := by
  have : m.role ∈ (scrubAllButLast k us).map Message.role :=
    List.mem_map_of_mem Message.role hm
  rwa [scrubAllButLast_roles] at this

theorem compact_filter_developer (k freshHeader : String) (msgs : List Message) :
    (compact k msgs freshHeader).filter (fun m => m.role = Role.developer)
      = [{ role := Role.developer, content := freshHeader }] := by
  unfold compact
  rw [List.filter_append, List.filter_append]
  have hA : (otherMessages msgs).filter (fun m => (m.role = Role.developer : Bool)) = [] := by
    rw [List.filter_eq_nil_iff]
    intro a ha
    have := (List.mem_filter.mp ha).2
    simp only [decide_eq_true_eq] at this
    simp [this.2]
  have hB : (scrubAllButLast k (userMessages msgs)).filter
      (fun m => (m.role = Role.developer : Bool)) = [] := by
    rw [List.filter_eq_nil_iff]
    intro a ha
    have hrole := mem_scrubAllButLast_role k (userMessages msgs) a ha
    rw [List.mem_map] at hrole
    obtain ⟨b, hb, hba⟩ := hrole
    have hbu := (List.mem_filter.mp hb).2
    simp only [decide_eq_true_eq] at hbu
    rw [← hba, hbu]
    simp
  rw [hA, hB]
  simp

/-! ## Claim theorems for the History Compactor -/

/-- C1: after compaction the session's stored list is exactly the
concatenation of the original non-user/non-developer messages (original
order), the original user messages scrubbed except the last (original
order), and one fresh developer message carrying `freshHeader`; the only
developer-role message in the output is that fresh one, so no input
developer message survives; and for the empty input list the output is
exactly the single fresh developer message. -/
theorem compact_output_structure (k freshHeader : String) (s : Session) :
    listMessages (compactSession k s freshHeader)
        = otherMessages (listMessages s)
            ++ scrubAllButLast k (userMessages (listMessages s))
            ++ [{ role := Role.developer, content := freshHeader }]
      ∧ (listMessages (compactSession k s freshHeader)).filter
            (fun m => m.role = Role.developer)
          = [{ role := Role.developer, content := freshHeader }]
      ∧ listMessages (compactSession k { messages := [] } freshHeader)
          = [{ role := Role.developer, content := freshHeader }] :=
  ⟨rfl, compact_filter_developer k freshHeader (listMessages s), rfl⟩

/-- C2: the last user-role message of the input (the last element of the
user group in original order) is a member of the compacted stored list,
unchanged — role and content byte-identical — even when its content parses
as JSON containing the scrubbed key. -/
theorem compact_preserves_latest_user (k freshHeader : String) (s : Session)
    (u : Message) (h : (userMessages (listMessages s)).getLast? = some u) :
    u ∈ listMessages (compactSession k s freshHeader) := by
  have h2 : (scrubAllButLast k (userMessages (listMessages s))).getLast? = some u := by
    rw [scrubAllButLast_getLast? k (userMessages (listMessages s))]
    exact h
  have hmem : u ∈ scrubAllButLast k (userMessages (listMessages s)) :=
    List.mem_of_mem_getLast? h2
  show u ∈ otherMessages (listMessages s)
      ++ scrubAllButLast k (userMessages (listMessages s))
      ++ [{ role := Role.developer, content := freshHeader }]
  exact List.mem_append.mpr (Or.inl (List.mem_append.mpr (Or.inr hmem)))

/-- Witness for C2 at a concrete session whose latest user message parses
as JSON and contains the scrubbed key, and whose older user message gets
scrubbed. -/
theorem compact_preserves_latest_user_witness :
    (userMessages [Message.mk Role.user "\x7b\"grade_details\":1\x7d",
        Message.mk Role.user "\x7b\"grade_details\":2,\"x\":3\x7d"]).getLast?
        = some (Message.mk Role.user "\x7b\"grade_details\":2,\"x\":3\x7d")
      ∧ Message.mk Role.user "\x7b\"grade_details\":2,\"x\":3\x7d"
          ∈ listMessages (compactSession "grade_details"
              { messages := [Message.mk Role.user "\x7b\"grade_details\":1\x7d",
                  Message.mk Role.user "\x7b\"grade_details\":2,\"x\":3\x7d"] } "H") :=
  ⟨by decide,
    compact_preserves_latest_user "grade_details" "H"
      { messages := [Message.mk Role.user "\x7b\"grade_details\":1\x7d",
          Message.mk Role.user "\x7b\"grade_details\":2,\"x\":3\x7d"] }
      (Message.mk Role.user "\x7b\"grade_details\":2,\"x\":3\x7d") (by decide)⟩

/-- C3: a non-latest user message (index `i` with at least one later user
message) appears in the compacted list at position
`|otherMessages| + i` with exactly the scrub transformation applied (so it
is not dropped; the transformation is a total function, so no exception is
possible); if its content parses as structured data the scrubbed content
parses as structured data not containing the scrubbed key; if its content
does not parse, the content is byte-identical to the input. -/
theorem compact_scrubs_nonlatest_user (k freshHeader : String) (s : Session)
    (i : Nat) (m : Message)
    (hm : (userMessages (listMessages s))[i]? = some m)
    (hi : i + 1 < (userMessages (listMessages s)).length) :
    (listMessages (compactSession k s freshHeader))[(otherMessages (listMessages s)).length + i]?
        = some (scrubMessage k m)
      ∧ (∀ o : Obj, parseObj m.content = some o →
          ∃ o' : Obj, parseObj (scrubMessage k m).content = some o'
            ∧ containsKey k o' = false)
      ∧ (parseObj m.content = none → (scrubMessage k m).content = m.content) := by
  refine ⟨?_, ?_, ?_⟩
  · show (otherMessages (listMessages s)
        ++ scrubAllButLast k (userMessages (listMessages s))
        ++ [{ role := Role.developer, content := freshHeader }])[(otherMessages (listMessages s)).length + i]?
      = some (scrubMessage k m)
    rw [List.append_assoc]
    rw [List.getElem?_append_right (Nat.le_add_right _ i)]
    rw [Nat.add_sub_cancel_left]
    have hiB : i < (scrubAllButLast k (userMessages (listMessages s))).length := by
      rw [scrubAllButLast_length]
      omega
    rw [List.getElem?_append_left hiB]
    rw [scrubAllButLast_getElem? k (userMessages (listMessages s)) i hi, hm]
    rfl
  · intro o ho
    refine ⟨o.filter (fun p => ¬ p.1 = k.data), ?_, ?_⟩
    · exact (scrubContent_parse_some k m.content o ho).1
    · exact (scrubContent_parse_some k m.content o ho).2
  · intro ho
    show scrubContent k m.content = m.content
    exact scrubContent_parse_none k m.content ho

/-- Witness for C3 at the spec's two-user-message scenario: the older
message `\x7b"grade_details":5,"a":1\x7d` is scrubbed to `\x7b"a":1\x7d` in
place. -/
theorem compact_scrubs_nonlatest_user_witness :
    (userMessages [Message.mk Role.user "\x7b\"grade_details\":5,\"a\":1\x7d",
        Message.mk Role.user "\x7b\"a\":2\x7d"])[0]?
        = some (Message.mk Role.user "\x7b\"grade_details\":5,\"a\":1\x7d")
      ∧ 0 + 1 < (userMessages [Message.mk Role.user "\x7b\"grade_details\":5,\"a\":1\x7d",
          Message.mk Role.user "\x7b\"a\":2\x7d"]).length
      ∧ (listMessages (compactSession "grade_details"
            { messages := [Message.mk Role.user "\x7b\"grade_details\":5,\"a\":1\x7d",
                Message.mk Role.user "\x7b\"a\":2\x7d"] } "H"))[(otherMessages
            [Message.mk Role.user "\x7b\"grade_details\":5,\"a\":1\x7d",
              Message.mk Role.user "\x7b\"a\":2\x7d"]).length + 0]?
          = some (scrubMessage "grade_details"
              (Message.mk Role.user "\x7b\"grade_details\":5,\"a\":1\x7d")) :=
  ⟨by decide, by decide,
    (compact_scrubs_nonlatest_user "grade_details" "H"
      { messages := [Message.mk Role.user "\x7b\"grade_details\":5,\"a\":1\x7d",
          Message.mk Role.user "\x7b\"a\":2\x7d"] } 0
      (Message.mk Role.user "\x7b\"grade_details\":5,\"a\":1\x7d")
      (by decide) (by decide)).1⟩

end Compactor

/-! ## Claim theorems for the dashboards -/

section DashboardClaims

open Dash

/-- Counterexample to C4: it is not the case that every exception handler
in the repository only displays the error — the `insert_feedback` handlers
also roll back the transaction (test.py line 67, test1.py line 97) and
return `False`, and the client-init handler also sets the client to
`None`. -/
theorem repo_error_handling_not_display_only :
    ¬ ∀ h ∈ repoExceptHandlers,
        ∀ a ∈ h.actions, a = RecoveryAction.displayError := by
  decide

/-- C4 as amended: every exception handler in the repository catches the
generic `Exception` type and displays the error, and none retries; the
only further recovery actions are the transaction rollback (with a `False`
return) in the two `insert_feedback` handlers and the client-reset to
`None` in the OpenAI initialization handler. -/
theorem repo_error_handling_catch_and_display (h : ExceptBlock)
    (hm : h ∈ repoExceptHandlers) :
    h.catchesGenericException = true
      ∧ RecoveryAction.displayError ∈ h.actions
      ∧ RecoveryAction.retryAction ∉ h.actions
      ∧ (RecoveryAction.rollback ∈ h.actions →
          h.location = "test.py insert_feedback"
            ∨ h.location = "test1.py insert_feedback")
      ∧ (RecoveryAction.setClientNone ∈ h.actions →
          h.location = "test1.py OpenAI client init") := by
  fin_cases hm <;> simp

/-- Witness for C4's amended theorem at the test.py `insert_feedback`
handler. -/
theorem repo_error_handling_catch_and_display_witness :
    (ExceptBlock.mk "test.py insert_feedback" true
        [RecoveryAction.rollback, RecoveryAction.displayError,
          RecoveryAction.returnFalseValue]) ∈ repoExceptHandlers
      ∧ (ExceptBlock.mk "test.py insert_feedback" true
          [RecoveryAction.rollback, RecoveryAction.displayError,
            RecoveryAction.returnFalseValue]).catchesGenericException = true :=
  ⟨by decide,
    (repo_error_handling_catch_and_display
      (ExceptBlock.mk "test.py insert_feedback" true
        [RecoveryAction.rollback, RecoveryAction.displayError,
          RecoveryAction.returnFalseValue]) (by decide)).1⟩

/-- Counterexample to C5: test.py's `fetch_das_data` does not read a
bounded page — no bound caps the number of rows it returns (its query has
no `LIMIT`/`OFFSET`), so the claim that both dashboards page with a
bounded limit/offset window is false. -/
theorem fetch_pagination_claim_false :
    ¬ ((∃ B : Nat, ∀ das : List Row, (Test.fetch_das_data das).length ≤ B)
        ∧ ∀ limit offset : Nat, ∀ das : List Row,
            ((Test1.fetch_das_data limit offset das).1).length ≤ limit) := by
  rintro ⟨⟨B, hB⟩, -⟩
  have h := hB (List.replicate (B + 1)
    (Row.mk "" none "" none none none none 0 0))
  simp [Test.fetch_das_data, Dash.orderByCreatedAtDesc,
    List.length_mergeSort, List.length_replicate] at h

/-- C5 as amended: test1.py's `fetch_das_data` reads a bounded
limit/offset window of the ordered table (at most `limit` rows, the
window starting at `offset`) together with the total row count, while
test.py's `fetch_das_data` returns every row of the table at once. -/
theorem fetch_pagination_amended (limit offset : Nat) (das : List Row) :
    ((Test1.fetch_das_data limit offset das).1).length ≤ limit
      ∧ (Test1.fetch_das_data limit offset das).1
          = ((orderByCreatedAtDesc das).drop offset).take limit
      ∧ (Test1.fetch_das_data limit offset das).2 = das.length
      ∧ (Test.fetch_das_data das).length = das.length := by
  refine ⟨List.length_take_le _ _, rfl, rfl, ?_⟩
  simp [Test.fetch_das_data, Dash.orderByCreatedAtDesc, List.length_mergeSort]

/-- C6: `insert_feedback` never modifies the `das` table it reads from —
in both dashboards, for every outcome — and on the successful outcome its
only write is appending the staged row to `das_feedback`. -/
theorem insert_feedback_frame (db : DB) (a : InsertArgs)
    (ai_notes : Option String) (outcome : InsertOutcome) :
    (Test.insert_feedback db a outcome).db.das = db.das
      ∧ (Test1.insert_feedback db a ai_notes outcome).db.das = db.das
      ∧ (Test.insert_feedback db a InsertOutcome.success).db.das_feedback
          = db.das_feedback ++ [stagedRow a]
      ∧ (Test1.insert_feedback db a ai_notes InsertOutcome.success).db.das_feedback
          = db.das_feedback ++ [stagedRow a] := by
  cases outcome <;>
    simp [Test.insert_feedback, Test1.insert_feedback, insertFeedbackRun]

/-- C9: `insert_feedback` returns `True` exactly on the committed run; on
any raising outcome the database is unchanged (the rollback discards the
staged row); the cursor and the connection are closed on every path; and
test1.py's variant behaves identically to test.py's for every `ai_notes`
value. -/
theorem insert_feedback_error_paths (db : DB) (a : InsertArgs)
    (ai_notes : Option String) (outcome : InsertOutcome) :
    ((Test.insert_feedback db a outcome).returned = true
        ↔ outcome = InsertOutcome.success)
      ∧ (¬ outcome = InsertOutcome.success →
          (Test.insert_feedback db a outcome).db = db)
      ∧ (Test.insert_feedback db a outcome).cursorClosed = true
      ∧ (Test.insert_feedback db a outcome).connClosed = true
      ∧ Test1.insert_feedback db a ai_notes outcome
          = Test.insert_feedback db a outcome := by
  cases outcome <;>
    simp [Test.insert_feedback, Test1.insert_feedback, insertFeedbackRun]

/-- Witness for C9 at a concrete failing insert: the run that raises in
`execute` returns `False` and leaves the database unchanged. -/
theorem insert_feedback_error_paths_witness :
    ¬ InsertOutcome.execFails = InsertOutcome.success
      ∧ (Test.insert_feedback (DB.mk [] [])
          (InsertArgs.mk "" none (PyVal.pstr "") "" "" "" "" "")
          InsertOutcome.execFails).db = DB.mk [] [] :=
  ⟨by decide,
    (insert_feedback_error_paths (DB.mk [] [])
      (InsertArgs.mk "" none (PyVal.pstr "") "" "" "" "" "") none
      InsertOutcome.execFails).2.1 (by decide)⟩

/-- C10: the `conversation` argument is serialized with `json.dumps`
exactly when it is a dict, a plain string passes through untouched, and
therefore the conversation text a dashboard reads from `das` and passes to
`insert_feedback` is written to `das_feedback` character-for-character
identical. -/
theorem insert_feedback_conversation_serialization
    (d : List (String × String)) (s : String) (db : DB) (a : InsertArgs) :
    conversation_json (PyVal.pdict d) = PyVal.pstr (pyJsonDumps d)
      ∧ conversation_json (PyVal.pstr s) = PyVal.pstr s
      ∧ ((Test.insert_feedback db { a with conversation := PyVal.pstr s }
            InsertOutcome.success).db.das_feedback).getLast?
          = some (stagedRow { a with conversation := PyVal.pstr s })
      ∧ (stagedRow { a with conversation := PyVal.pstr s }).conversation
          = PyVal.pstr s := by
  refine ⟨rfl, rfl, ?_, rfl⟩
  simp [Test.insert_feedback, insertFeedbackRun, List.getLast?_concat]

end DashboardClaims

/-! ## Claim theorems for the AI critique call -/

section AiClaims

open Dash

/-- A string whose data occurs contiguously inside another string's data,
exhibited through a string-level decomposition. -/
theorem strContains_data (p w : String) (hx : ∃ x z : String, p = x ++ w ++ z) :
    ∃ pre suf : List Char, p.data = pre ++ w.data ++ suf := by
  obtain ⟨x, z, hp⟩ := hx
  exact ⟨x.data, z.data, by simp [hp, String.data_append]⟩

/-- C8: `get_ai_critique` is total at its interface (it is a function into
`String`, so it cannot raise): with an uninitialized client it returns the
fixed error string; when the model call raises it returns the raised
message prefixed with `AI Error: `; when the call returns it returns the
response content; and the conversation text entering the prompt is the
truncation of the input to at most its first 8000 characters. -/
theorem get_ai_critique_interface (text : String)
    (fb : List (String × Option String)) (chat : String → Test1.ChatOutcome)
    (r e : String) :
    Test1.get_ai_critique none text fb = "Error: OpenAI client not initialized."
      ∧ (chat (Test1.critiquePrompt text fb) = Test1.ChatOutcome.raises e →
          Test1.get_ai_critique (some chat) text fb = "AI Error: " ++ e)
      ∧ (chat (Test1.critiquePrompt text fb) = Test1.ChatOutcome.ok r →
          Test1.get_ai_critique (some chat) text fb = r)
      ∧ (Test1.pyTruncate 8000 text).data = text.data.take 8000
      ∧ (Test1.pyTruncate 8000 text).data.length ≤ 8000
      ∧ Test1.critiquePrompt text fb
          = Test1.critiquePrompt (Test1.pyTruncate 8000 text) fb := by
  have htt : Test1.pyTruncate 8000 (Test1.pyTruncate 8000 text)
      = Test1.pyTruncate 8000 text := by
    simp [Test1.pyTruncate, List.take_take]
  refine ⟨rfl, ?_, ?_, rfl, ?_, ?_⟩
  · intro h
    simp [Test1.get_ai_critique, h]
  · intro h
    simp [Test1.get_ai_critique, h]
  · simp only [Test1.pyTruncate]
    exact List.length_take_le 8000 text.data
  · simp [Test1.critiquePrompt, htt]

/-- Witness for C8 at a concrete raising model call. -/
theorem get_ai_critique_interface_witness :
    ((fun _ : String => Test1.ChatOutcome.raises "boom")
        (Test1.critiquePrompt "t" []) = Test1.ChatOutcome.raises "boom")
      ∧ Test1.get_ai_critique
          (some (fun _ : String => Test1.ChatOutcome.raises "boom")) "t" []
          = "AI Error: " ++ "boom" :=
  ⟨rfl,
    (get_ai_critique_interface "t" []
      (fun _ : String => Test1.ChatOutcome.raises "boom") "r" "boom").2.1 rfl⟩

/-- Counterexample to C7: `get_ai_critique` truncates the conversation to
its first 8000 characters, so for a transcript of 8001 characters the
prompt does not contain the transcript text — here a run of 8001 `Z`
characters, no 8001 of which occur in the prompt (it holds only 8000). -/
theorem critique_prompt_omits_tail_of_long_transcript :
    ¬ ∃ pre suf : List Char,
        (Test1.critiquePrompt (String.mk (List.replicate 8001 'Z'))
            [("generic", none), ("industry", none), ("market", none),
              ("conversation", none)]).data
          = pre ++ (String.mk (List.replicate 8001 'Z')).data ++ suf := by
  rintro ⟨pre, suf, h⟩
  have hT : (Test1.pyTruncate 8000 (String.mk (List.replicate 8001 'Z'))).data
      = List.replicate 8000 'Z' := by
    show List.take 8000 (List.replicate 8001 'Z') = List.replicate 8000 'Z'
    rw [List.take_replicate]
    congr 1
  have hc : ((Test1.critiquePrompt (String.mk (List.replicate 8001 'Z'))
      [("generic", none), ("industry", none), ("market", none),
        ("conversation", none)]).data).count 'Z' = 8000 := by
    simp only [Test1.critiquePrompt, String.data_append, List.count_append, hT]
    have h1 : (Test1.promptSeg1.data).count 'Z' = 0 := by decide
    have h2 : (Test1.promptSeg2.data).count 'Z' = 0 := by decide
    have h3 : (Test1.promptSeg3.data).count 'Z' = 0 := by decide
    have h4 : (Test1.promptSeg4.data).count 'Z' = 0 := by decide
    have h5 : (Test1.promptSeg5.data).count 'Z' = 0 := by decide
    have h6 : (Test1.promptSeg6.data).count 'Z' = 0 := by decide
    have hg : (Test1.pyDictGetRendered
        [("generic", none), ("industry", none), ("market", none),
          ("conversation", none)] "generic" "N/A") = "None" := by decide
    have hi : (Test1.pyDictGetRendered
        [("generic", none), ("industry", none), ("market", none),
          ("conversation", none)] "industry" "N/A") = "None" := by decide
    have hm : (Test1.pyDictGetRendered
        [("generic", none), ("industry", none), ("market", none),
          ("conversation", none)] "market" "N/A") = "None" := by decide
    have hcv : (Test1.pyDictGetRendered
        [("generic", none), ("industry", none), ("market", none),
          ("conversation", none)] "conversation" "N/A") = "None" := by decide
    have hn : (("None" : String).data).count 'Z' = 0 := by decide
    rw [hg, hi, hm, hcv, h1, h2, h3, h4, h5, h6, hn,
      List.count_replicate_self]
  rw [h, List.count_append, List.count_append] at hc
  have hz : ((String.mk (List.replicate 8001 'Z')).data).count 'Z' = 8001 := by
    show (List.replicate 8001 'Z').count 'Z' = 8001
    exact List.count_replicate_self 'Z' 8001
  omega

/-- C7 as amended: the critique prompt contains the rendered values of all
four current feedback fields and the first 8000 characters of the
transcript (the whole transcript exactly when it is at most 8000
characters long); the prompt is what is sent to the hosted model, and the
response content is stored as the AI result, which the page displays when
non-empty. -/
theorem critique_flow (chat : String → Test1.ChatOutcome) (row : Row) (r : String) :
    (∃ pre suf : List Char,
        (Test1.critiquePrompt row.conversation (Test1.current_inputs row)).data
          = pre ++ (Test1.pyDictGetRendered (Test1.current_inputs row)
              "generic" "N/A").data ++ suf)
      ∧ (∃ pre suf : List Char,
          (Test1.critiquePrompt row.conversation (Test1.current_inputs row)).data
            = pre ++ (Test1.pyDictGetRendered (Test1.current_inputs row)
                "industry" "N/A").data ++ suf)
      ∧ (∃ pre suf : List Char,
          (Test1.critiquePrompt row.conversation (Test1.current_inputs row)).data
            = pre ++ (Test1.pyDictGetRendered (Test1.current_inputs row)
                "market" "N/A").data ++ suf)
      ∧ (∃ pre suf : List Char,
          (Test1.critiquePrompt row.conversation (Test1.current_inputs row)).data
            = pre ++ (Test1.pyDictGetRendered (Test1.current_inputs row)
                "conversation" "N/A").data ++ suf)
      ∧ (∃ pre suf : List Char,
          (Test1.critiquePrompt row.conversation (Test1.current_inputs row)).data
            = pre ++ (Test1.pyTruncate 8000 row.conversation).data ++ suf)
      ∧ (row.conversation.data.length ≤ 8000 →
          Test1.pyTruncate 8000 row.conversation = row.conversation)
      ∧ (chat (Test1.critiquePrompt row.conversation (Test1.current_inputs row))
            = Test1.ChatOutcome.ok r →
          Test1.analyzeButtonAiResult (some chat) row = r
            ∧ (¬ r = "" → Test1.displayedAiResult r = some r)) := by
  refine ⟨?_, ?_, ?_, ?_, ?_, ?_, ?_⟩
  · refine strContains_data _ _
      ⟨Test1.promptSeg1 ++ Test1.pyTruncate 8000 row.conversation ++ Test1.promptSeg2,
        Test1.promptSeg3
          ++ Test1.pyDictGetRendered (Test1.current_inputs row) "industry" "N/A"
          ++ Test1.promptSeg4
          ++ Test1.pyDictGetRendered (Test1.current_inputs row) "market" "N/A"
          ++ Test1.promptSeg5
          ++ Test1.pyDictGetRendered (Test1.current_inputs row) "conversation" "N/A"
          ++ Test1.promptSeg6, ?_⟩
    simp [Test1.critiquePrompt, String.append_assoc]
  · refine strContains_data _ _
      ⟨Test1.promptSeg1 ++ Test1.pyTruncate 8000 row.conversation ++ Test1.promptSeg2
          ++ Test1.pyDictGetRendered (Test1.current_inputs row) "generic" "N/A"
          ++ Test1.promptSeg3,
        Test1.promptSeg4
          ++ Test1.pyDictGetRendered (Test1.current_inputs row) "market" "N/A"
          ++ Test1.promptSeg5
          ++ Test1.pyDictGetRendered (Test1.current_inputs row) "conversation" "N/A"
          ++ Test1.promptSeg6, ?_⟩
    simp [Test1.critiquePrompt, String.append_assoc]
  · refine strContains_data _ _
      ⟨Test1.promptSeg1 ++ Test1.pyTruncate 8000 row.conversation ++ Test1.promptSeg2
          ++ Test1.pyDictGetRendered (Test1.current_inputs row) "generic" "N/A"
          ++ Test1.promptSeg3
          ++ Test1.pyDictGetRendered (Test1.current_inputs row) "industry" "N/A"
          ++ Test1.promptSeg4,
        Test1.promptSeg5
          ++ Test1.pyDictGetRendered (Test1.current_inputs row) "conversation" "N/A"
          ++ Test1.promptSeg6, ?_⟩
    simp [Test1.critiquePrompt, String.append_assoc]
  · refine strContains_data _ _
      ⟨Test1.promptSeg1 ++ Test1.pyTruncate 8000 row.conversation ++ Test1.promptSeg2
          ++ Test1.pyDictGetRendered (Test1.current_inputs row) "generic" "N/A"
          ++ Test1.promptSeg3
          ++ Test1.pyDictGetRendered (Test1.current_inputs row) "industry" "N/A"
          ++ Test1.promptSeg4
          ++ Test1.pyDictGetRendered (Test1.current_inputs row) "market" "N/A"
          ++ Test1.promptSeg5,
        Test1.promptSeg6, ?_⟩
    simp [Test1.critiquePrompt, String.append_assoc]
  · refine strContains_data _ _
      ⟨Test1.promptSeg1,
        Test1.promptSeg2
          ++ Test1.pyDictGetRendered (Test1.current_inputs row) "generic" "N/A"
          ++ Test1.promptSeg3
          ++ Test1.pyDictGetRendered (Test1.current_inputs row) "industry" "N/A"
          ++ Test1.promptSeg4
          ++ Test1.pyDictGetRendered (Test1.current_inputs row) "market" "N/A"
          ++ Test1.promptSeg5
          ++ Test1.pyDictGetRendered (Test1.current_inputs row) "conversation" "N/A"
          ++ Test1.promptSeg6, ?_⟩
    simp [Test1.critiquePrompt, String.append_assoc]
  · intro hlen
    simp [Test1.pyTruncate, List.take_of_length_le hlen]
  · intro h
    refine ⟨?_, ?_⟩
    · simp [Test1.analyzeButtonAiResult, Test1.get_ai_critique, h]
    · intro hr
      simp [Test1.displayedAiResult, hr]

/-- Witness for C7's amended theorem at a concrete row and model. -/
theorem critique_flow_witness :
    Test1.analyzeButtonAiResult
        (some (fun _ : String => Test1.ChatOutcome.ok "resp"))
        (Row.mk "id" none "conv" none none none none 0 0) = "resp"
      ∧ Test1.displayedAiResult "resp" = some "resp" :=
  have h := (critique_flow (fun _ : String => Test1.ChatOutcome.ok "resp")
      (Row.mk "id" none "conv" none none none none 0 0) "resp").2.2.2.2.2.2
  ⟨(h rfl).1, (h rfl).2 (by decide)⟩

end AiClaims
